import Mathlib

/-!
Shallow embedding of src/gdm/src/mat4.h (the gdm 4x4 row-major matrix type)
over exact rational arithmetic, together with proofs about its operations.

The matrix code itself (constructors, determinant, operator*, canBeInverse,
inverse, transpose, translate, rotate) is translated line by line from
mat4.h.  The leaf collaborators vec3, vec4 and the shared tolerance constant
live in vec3.h / vec4.h / mathbase.h, which are not part of the sources; they
are modelled from the specification of their consumed interface (component
tuples with addition, scalar multiplication, subtraction, dot and cross
product, plus a single small positive tolerance).
-/

namespace gdm

/-- Modelled from the spec: the shared floating-point tolerance constant
`TOLERANCE` from mathbase.h (not under src/): "a single floating-point
tolerance (EPSILON) used uniformly for all singularity checks", a fixed small
positive constant. -/
def TOLERANCE : ℚ := 1 / 1000000

/-- Modelled from the spec: the external vec3 collaborator (vec3.h is not
under src/): a plain component tuple x, y, z. -/
structure vec3 where
  x : ℚ
  y : ℚ
  z : ℚ
deriving DecidableEq

/-- Modelled from the spec: componentwise vec3 addition. -/
def vec3.add (u v : vec3) : vec3 :=
  ⟨u.x + v.x, u.y + v.y, u.z + v.z⟩

/-- Modelled from the spec: componentwise vec3 subtraction. -/
def vec3.sub (u v : vec3) : vec3 :=
  ⟨u.x - v.x, u.y - v.y, u.z - v.z⟩

/-- Modelled from the spec: vec3 scalar multiplication `v * k`. -/
def vec3.smul (u : vec3) (k : ℚ) : vec3 :=
  ⟨u.x * k, u.y * k, u.z * k⟩

/-- Modelled from the spec: the euclidean dot product `dot(vec3, vec3)`. -/
def dot (u v : vec3) : ℚ :=
  u.x * v.x + u.y * v.y + u.z * v.z

/-- Modelled from the spec: the vector cross product `cross(vec3, vec3)`. -/
def cross (u v : vec3) : vec3 :=
  ⟨u.y * v.z - u.z * v.y, u.z * v.x - u.x * v.z, u.x * v.y - u.y * v.x⟩

/-- Modelled from the spec: the external vec4 collaborator (vec4.h is not
under src/): a plain component tuple x, y, z, w. -/
structure vec4 where
  x : ℚ
  y : ℚ
  z : ℚ
  w : ℚ
deriving DecidableEq

/-- The 4x4 matrix `mat4` of mat4.h: sixteen scalars in row-major order,
field `mIJ` holding row I, column J (the 16-scalar constructor order). -/
@[ext]
structure mat4 where
  m00 : ℚ
  m01 : ℚ
  m02 : ℚ
  m03 : ℚ
  m10 : ℚ
  m11 : ℚ
  m12 : ℚ
  m13 : ℚ
  m20 : ℚ
  m21 : ℚ
  m22 : ℚ
  m23 : ℚ
  m30 : ℚ
  m31 : ℚ
  m32 : ℚ
  m33 : ℚ
deriving DecidableEq

/-- The default constructor `mat4()`: the identity matrix. -/
def mat4.identity : mat4 :=
  ⟨1, 0, 0, 0,
   0, 1, 0, 0,
   0, 0, 1, 0,
   0, 0, 0, 1⟩

/-- The row constructor `mat4(vec4 row1, vec4 row2, vec4 row3, vec4 row4)`:
each argument vector becomes one row. -/
def mat4.ofRows (row1 row2 row3 row4 : vec4) : mat4 :=
  ⟨row1.x, row1.y, row1.z, row1.w,
   row2.x, row2.y, row2.z, row2.w,
   row3.x, row3.y, row3.z, row3.w,
   row4.x, row4.y, row4.z, row4.w⟩

/-- The element accessor `operator()(int i, int j)`: `m[i][j]`. -/
def mat4.el (A : mat4) : Fin 4 → Fin 4 → ℚ
  | ⟨0, _⟩, ⟨0, _⟩ => A.m00
  | ⟨0, _⟩, ⟨1, _⟩ => A.m01
  | ⟨0, _⟩, ⟨2, _⟩ => A.m02
  | ⟨0, _⟩, ⟨3, _⟩ => A.m03
  | ⟨1, _⟩, ⟨0, _⟩ => A.m10
  | ⟨1, _⟩, ⟨1, _⟩ => A.m11
  | ⟨1, _⟩, ⟨2, _⟩ => A.m12
  | ⟨1, _⟩, ⟨3, _⟩ => A.m13
  | ⟨2, _⟩, ⟨0, _⟩ => A.m20
  | ⟨2, _⟩, ⟨1, _⟩ => A.m21
  | ⟨2, _⟩, ⟨2, _⟩ => A.m22
  | ⟨2, _⟩, ⟨3, _⟩ => A.m23
  | ⟨3, _⟩, ⟨0, _⟩ => A.m30
  | ⟨3, _⟩, ⟨1, _⟩ => A.m31
  | ⟨3, _⟩, ⟨2, _⟩ => A.m32
  | ⟨3, _⟩, ⟨3, _⟩ => A.m33

/-- Embeds `mat4::determinant()` literally: six 2x2 minors of rows 0-1
(`a0..a5`), six of rows 2-3 (`b0..b5`), combined exactly as in the source. -/
def mat4.determinant (A : mat4) : ℚ :=
  let a0 := A.m00 * A.m11 - A.m01 * A.m10
  let a1 := A.m00 * A.m12 - A.m02 * A.m10
  let a2 := A.m00 * A.m13 - A.m03 * A.m10
  let a3 := A.m01 * A.m12 - A.m02 * A.m11
  let a4 := A.m01 * A.m13 - A.m03 * A.m11
  let a5 := A.m02 * A.m13 - A.m03 * A.m12
  let b0 := A.m20 * A.m31 - A.m21 * A.m30
  let b1 := A.m20 * A.m32 - A.m22 * A.m30
  let b2 := A.m20 * A.m33 - A.m23 * A.m30
  let b3 := A.m21 * A.m32 - A.m22 * A.m31
  let b4 := A.m21 * A.m33 - A.m23 * A.m31
  let b5 := A.m22 * A.m33 - A.m23 * A.m32
  a0 * b5 - a1 * b4 + a2 * b3 + a3 * b2 - a4 * b1 + a5 * b0

/-- Embeds `mat4::GetRow(int index)`: a copy of row `index` as a vec4. -/
def mat4.GetRow (A : mat4) (index : Fin 4) : vec4 :=
  ⟨A.el index 0, A.el index 1, A.el index 2, A.el index 3⟩

/-- The inner loop of `operator*(mat4, mat4)`:
`sum += mat1(row, i) * mat2(i, col)` for i = 0..3. -/
def mulSum (mat1 mat2 : mat4) (row col : Fin 4) : ℚ :=
  mat1.el row 0 * mat2.el 0 col + mat1.el row 1 * mat2.el 1 col +
    mat1.el row 2 * mat2.el 2 col + mat1.el row 3 * mat2.el 3 col

/-- The flat buffer of `operator*(mat4, mat4)`: the loop stores the (row, col)
sum at `p[col + row * 4]`, so buffer slot k holds the sum for row k / 4,
column k % 4. -/
def mulBuf (mat1 mat2 : mat4) (k : Fin 16) : ℚ :=
  mulSum mat1 mat2 ⟨k.val / 4, by omega⟩ ⟨k.val % 4, by omega⟩

/-- Embeds `operator*(mat4, mat4)`: the result is built by the 16-scalar constructor
from `p[0], ..., p[15]` in row-major order; since `p[col + row * 4]` holds the
(row, col) sum, field mRC of the result is the (R, C) sum. -/
def mul (mat1 mat2 : mat4) : mat4 :=
  ⟨mulSum mat1 mat2 0 0, mulSum mat1 mat2 0 1, mulSum mat1 mat2 0 2, mulSum mat1 mat2 0 3,
   mulSum mat1 mat2 1 0, mulSum mat1 mat2 1 1, mulSum mat1 mat2 1 2, mulSum mat1 mat2 1 3,
   mulSum mat1 mat2 2 0, mulSum mat1 mat2 2 1, mulSum mat1 mat2 2 2, mulSum mat1 mat2 2 3,
   mulSum mat1 mat2 3 0, mulSum mat1 mat2 3 1, mulSum mat1 mat2 3 2, mulSum mat1 mat2 3 3⟩

/-- Embeds `canBeInverse(mat4)`: `!(std::abs(mat.determinant()) <= TOLERANCE)`. -/
def canBeInverse (mat : mat4) : Bool :=
  !(decide (|mat.determinant| ≤ TOLERANCE))

/-- The divisor of `invDet` inside `inverse(mat4)`:
`dot(s, v) + dot(t, u)` with a, b, c, d the first three columns and the
translation column, x, y, z, w the bottom row, exactly as in the source. -/
def invDivisor (mat : mat4) : ℚ :=
  let a : vec3 := ⟨mat.el 0 0, mat.el 1 0, mat.el 2 0⟩
  let b : vec3 := ⟨mat.el 0 1, mat.el 1 1, mat.el 2 1⟩
  let c : vec3 := ⟨mat.el 0 2, mat.el 1 2, mat.el 2 2⟩
  let d : vec3 := ⟨mat.el 0 3, mat.el 1 3, mat.el 2 3⟩
  let x := mat.el 3 0
  let y := mat.el 3 1
  let z := mat.el 3 2
  let w := mat.el 3 3
  let s := cross a b
  let t := cross c d
  let u := (a.smul y).sub (b.smul x)
  let v := (c.smul w).sub (d.smul z)
  dot s v + dot t u

/-- Embeds `inverse(mat4)` literally: identity fallback when
`|determinant| <= TOLERANCE`, otherwise the block decomposition of the
source (s, t, u, v rescaled in place by invDet, as the `*=` does). -/
def inverse (mat : mat4) : mat4 :=
  if |mat.determinant| ≤ TOLERANCE then mat4.identity
  else
    let a : vec3 := ⟨mat.el 0 0, mat.el 1 0, mat.el 2 0⟩
    let b : vec3 := ⟨mat.el 0 1, mat.el 1 1, mat.el 2 1⟩
    let c : vec3 := ⟨mat.el 0 2, mat.el 1 2, mat.el 2 2⟩
    let d : vec3 := ⟨mat.el 0 3, mat.el 1 3, mat.el 2 3⟩
    let x := mat.el 3 0
    let y := mat.el 3 1
    let z := mat.el 3 2
    let w := mat.el 3 3
    let s := cross a b
    let t := cross c d
    let u := (a.smul y).sub (b.smul x)
    let v := (c.smul w).sub (d.smul z)
    let invDet := 1 / (dot s v + dot t u)
    let s := s.smul invDet
    let t := t.smul invDet
    let u := u.smul invDet
    let v := v.smul invDet
    let r0 := (cross b v).add (t.smul y)
    let r1 := (cross v a).sub (t.smul x)
    let r2 := (cross d u).add (s.smul w)
    let r3 := (cross u c).sub (s.smul z)
    ⟨r0.x, r0.y, r0.z, -(dot b t),
     r1.x, r1.y, r1.z, dot a t,
     r2.x, r2.y, r2.z, -(dot d s),
     r3.x, r3.y, r3.z, dot c s⟩

/-- Embeds `transpose(mat4)`: built by the row constructor from the four columns of
the input. -/
def transpose (mat : mat4) : mat4 :=
  mat4.ofRows
    ⟨mat.el 0 0, mat.el 1 0, mat.el 2 0, mat.el 3 0⟩
    ⟨mat.el 0 1, mat.el 1 1, mat.el 2 1, mat.el 3 1⟩
    ⟨mat.el 0 2, mat.el 1 2, mat.el 2 2, mat.el 3 2⟩
    ⟨mat.el 0 3, mat.el 1 3, mat.el 2 3, mat.el 3 3⟩

/-- Embeds `translate(mat4, vec3)`: adds the translation components to row 3's
x, y, z and rebuilds the matrix from its rows. -/
def translate (mat : mat4) (translation : vec3) : mat4 :=
  let translationRow := mat.GetRow 3
  let translationRow :=
    { translationRow with
        x := translationRow.x + translation.x,
        y := translationRow.y + translation.y,
        z := translationRow.z + translation.z }
  mat4.ofRows (mat.GetRow 0) (mat.GetRow 1) (mat.GetRow 2) translationRow

/-- Embeds `rotate(mat4, angle, axis)` literally.  The calls
`std::cos(angle)` and `std::sin(angle)` go to the external cmath library, so
the builder is embedded as a function of the two values `cos` and `sin` those
calls return.  Note `axaz` is computed from `x * axis.y` exactly as in the
source (line 224 of mat4.h). -/
def rotate (mat : mat4) (cos sin : ℚ) (axis : vec3) : mat4 :=
  let d := 1 - cos
  let x := axis.x * d
  let y := axis.y * d
  let z := axis.z * d
  let axay := x * axis.y
  let axaz := x * axis.y
  let ayaz := y * axis.z
  ⟨cos + x * axis.x, axay - sin * axis.z, axaz + sin * axis.y, mat.el 0 3,
   axay + sin * axis.z, cos + y * axis.y, ayaz - sin * axis.x, mat.el 1 3,
   axaz - sin * axis.y, ayaz + sin * axis.x, cos + z * axis.z, mat.el 2 3,
   mat.el 3 0, mat.el 3 1, mat.el 3 2, mat.el 3 3⟩

/-- Embeds `scale(mat4, vec3)`: multiplies the three leading diagonal entries by the
scale components, leaving every other element unchanged. -/
def scale (mat : mat4) (s : vec3) : mat4 :=
  ⟨mat.el 0 0 * s.x, mat.el 0 1, mat.el 0 2, mat.el 0 3,
   mat.el 1 0, mat.el 1 1 * s.y, mat.el 1 2, mat.el 1 3,
   mat.el 2 0, mat.el 2 1, mat.el 2 2 * s.z, mat.el 2 3,
   mat.el 3 0, mat.el 3 1, mat.el 3 2, mat.el 3 3⟩

/-- The same 16 elements as a Mathlib matrix, for comparison with the
library determinant. -/
def mat4.toMatrix (A : mat4) : Matrix (Fin 4) (Fin 4) ℚ :=
  !![A.m00, A.m01, A.m02, A.m03;
     A.m10, A.m11, A.m12, A.m13;
     A.m20, A.m21, A.m22, A.m23;
     A.m30, A.m31, A.m32, A.m33]

@[simp] theorem mat4.el_00 (A : mat4) : A.el 0 0 = A.m00 := rfl
@[simp] theorem mat4.el_01 (A : mat4) : A.el 0 1 = A.m01 := rfl
@[simp] theorem mat4.el_02 (A : mat4) : A.el 0 2 = A.m02 := rfl
@[simp] theorem mat4.el_03 (A : mat4) : A.el 0 3 = A.m03 := rfl
@[simp] theorem mat4.el_10 (A : mat4) : A.el 1 0 = A.m10 := rfl
@[simp] theorem mat4.el_11 (A : mat4) : A.el 1 1 = A.m11 := rfl
@[simp] theorem mat4.el_12 (A : mat4) : A.el 1 2 = A.m12 := rfl
@[simp] theorem mat4.el_13 (A : mat4) : A.el 1 3 = A.m13 := rfl
@[simp] theorem mat4.el_20 (A : mat4) : A.el 2 0 = A.m20 := rfl
@[simp] theorem mat4.el_21 (A : mat4) : A.el 2 1 = A.m21 := rfl
@[simp] theorem mat4.el_22 (A : mat4) : A.el 2 2 = A.m22 := rfl
@[simp] theorem mat4.el_23 (A : mat4) : A.el 2 3 = A.m23 := rfl
@[simp] theorem mat4.el_30 (A : mat4) : A.el 3 0 = A.m30 := rfl
@[simp] theorem mat4.el_31 (A : mat4) : A.el 3 1 = A.m31 := rfl
@[simp] theorem mat4.el_32 (A : mat4) : A.el 3 2 = A.m32 := rfl
@[simp] theorem mat4.el_33 (A : mat4) : A.el 3 3 = A.m33 := rfl

/-- C3: whenever `|determinant(M)| <= TOLERANCE`, `inverse(M)` returns the
identity matrix (the explicit fallback branch, no error signaled). -/
theorem inverse_singular_fallback (M : mat4) (h : |M.determinant| ≤ TOLERANCE) :
    inverse M = mat4.identity := by
  unfold inverse
  rw [if_pos h]

/-- C3 witness: the all-zero matrix has determinant 0, within tolerance, and
its inverse is the identity matrix. -/
theorem inverse_singular_fallback_witness :
    |(⟨0, 0, 0, 0, 0, 0, 0, 0, 0, 0, 0, 0, 0, 0, 0, 0⟩ : mat4).determinant| ≤ TOLERANCE ∧
      inverse ⟨0, 0, 0, 0, 0, 0, 0, 0, 0, 0, 0, 0, 0, 0, 0, 0⟩ = mat4.identity := by
  have h : |(⟨0, 0, 0, 0, 0, 0, 0, 0, 0, 0, 0, 0, 0, 0, 0, 0⟩ : mat4).determinant| ≤ TOLERANCE := by
    norm_num [mat4.determinant, TOLERANCE]
  exact ⟨h, inverse_singular_fallback _ h⟩

/-- C4: the determinant computed by the source's six-minor cofactor expansion
equals the mathematical determinant of the 4x4 matrix of M's 16 elements. -/
theorem determinant_eq_matrix_det (M : mat4) :
    M.determinant = M.toMatrix.det := by
  simp [mat4.toMatrix, Matrix.det_succ_row_zero, Fin.sum_univ_succ, mat4.determinant,
    Fin.succAbove, Fin.castSucc, Fin.succ, Fin.castAdd, Fin.castLE, Fin.lt_def]
  ring

/-- C5: every element (row, col) of the product `M1 * M2` is the row-by-column
dot product over i in 0..3, and the flat buffer slot `p[col + row * 4]` holds
exactly the (row, col) element of the result. -/
theorem mul_el_eq_sum (M1 M2 : mat4) (row col : Fin 4) :
    ((mul M1 M2).el row col = ∑ i : Fin 4, M1.el row i * M2.el i col) ∧
      mulBuf M1 M2 ⟨col.val + row.val * 4, by have h1 := row.isLt; have h2 := col.isLt; omega⟩ =
        (mul M1 M2).el row col := by
  constructor
  · rw [Fin.sum_univ_four]
    fin_cases row <;> fin_cases col <;> rfl
  · fin_cases row <;> fin_cases col <;> rfl

/-- C6: row i of `transpose(M)` is column i of M, and transpose is an
involution. -/
theorem transpose_row_col_involution (M : mat4) :
    (∀ i j : Fin 4, (transpose M).el i j = M.el j i) ∧
      transpose (transpose M) = M := by
  constructor
  · intro i j
    fin_cases i <;> fin_cases j <;> rfl
  · apply mat4.ext <;> rfl

/-- C7: translating twice adds the translation vectors (row 3's x, y, z are
additive), and translate leaves rows 0-2 and row 3's w component unchanged. -/
theorem translate_compose_add (M : mat4) (t1 t2 : vec3) :
    translate (translate M t1) t2 = translate M (t1.add t2) ∧
      (∀ i : Fin 3, ∀ j : Fin 4, (translate M t1).el i.castSucc j = M.el i.castSucc j) ∧
      (translate M t1).el 3 3 = M.el 3 3 := by
  refine ⟨?_, ?_, rfl⟩
  · apply mat4.ext <;>
      simp [translate, mat4.GetRow, mat4.ofRows, vec3.add] <;>
      ring
  · intro i j
    fin_cases i <;> fin_cases j <;> rfl

/-- C8: `rotate(M, angle, axis)` preserves column 3 of rows 0-2 and all of
row 3 from the input matrix, for every value of cos(angle) and sin(angle). -/
theorem rotate_preserves_affine_parts (M : mat4) (c s : ℚ) (axis : vec3) :
    (∀ i : Fin 3, (rotate M c s axis).el i.castSucc 3 = M.el i.castSucc 3) ∧
      (∀ j : Fin 4, (rotate M c s axis).el 3 j = M.el 3 j) := by
  constructor
  · intro i
    fin_cases i <;> rfl
  · intro j
    fin_cases j <;> rfl

/-- C10: the upper-left 3x3 rotation block written by `rotate` depends only on
the cos/sin values and the axis, never on the input matrix: two different
input matrices receive identical blocks. -/
theorem rotate_block_independent_of_input (M1 M2 : mat4) (c s : ℚ) (axis : vec3)
    (i j : Fin 3) :
    (rotate M1 c s axis).el i.castSucc j.castSucc =
      (rotate M2 c s axis).el i.castSucc j.castSucc := by
  fin_cases i <;> fin_cases j <;> rfl

/-- C9: in the non-fallback branch of `inverse` the divisor
`dot(s, v) + dot(t, u)` of the reciprocal equals `determinant(M)` exactly, and
is therefore nonzero there: the division never divides by zero. -/
theorem invDivisor_eq_determinant (M : mat4) (h : TOLERANCE < |M.determinant|) :
    invDivisor M = M.determinant ∧ invDivisor M ≠ 0 := by
  have he : invDivisor M = M.determinant := by
    simp only [invDivisor, mat4.determinant, dot, cross, vec3.smul, vec3.sub,
      mat4.el_00, mat4.el_01, mat4.el_02, mat4.el_03,
      mat4.el_10, mat4.el_11, mat4.el_12, mat4.el_13,
      mat4.el_20, mat4.el_21, mat4.el_22, mat4.el_23,
      mat4.el_30, mat4.el_31, mat4.el_32, mat4.el_33]
    ring
  refine ⟨he, ?_⟩
  rw [he]
  intro h0
  rw [h0] at h
  norm_num [TOLERANCE] at h

/-- C9 witness: the identity matrix reaches the non-fallback branch, and there
the divisor equals its determinant and is nonzero. -/
theorem invDivisor_eq_determinant_witness :
    TOLERANCE < |mat4.identity.determinant| ∧
      (invDivisor mat4.identity = mat4.identity.determinant ∧
        invDivisor mat4.identity ≠ 0) := by
  have h : TOLERANCE < |mat4.identity.determinant| := by
    norm_num [mat4.identity, mat4.determinant, TOLERANCE]
  exact ⟨h, invDivisor_eq_determinant _ h⟩

/-- C1: the coefficient `axaz` in `rotate` is computed from `x * axis.y`
(duplicating the `axis.x * d * axis.y` term), not from `axis.x * d * axis.z`:
at cos = 0, sin = 1, axis = (1, 2, 3) the (0, 2) entry of the built rotation
block is `1 * (1 - 0) * 2 + 1 * 2 = 4`, while the Rodrigues formula demanded
by the claim gives `1 * (1 - 0) * 3 + 1 * 2 = 5`. -/
theorem rotate_axaz_duplicates_axay :
    (rotate mat4.identity 0 1 ⟨1, 2, 3⟩).el 0 2 = 4 ∧
      ((1 : ℚ) * (1 - 0) * 3 + 1 * 2 = 5) ∧ (4 : ℚ) ≠ 5 := by
  refine ⟨?_, by norm_num, by norm_num⟩
  norm_num [rotate]

set_option maxHeartbeats 2000000 in
/-- C2: for every matrix M with `canBeInverse(M) = true`, the product
`M * inverse(M)` is exactly the identity matrix (exact rational
arithmetic). -/
theorem mul_inverse_identity (M : mat4) (h : canBeInverse M = true) :
    mul M (inverse M) = mat4.identity := by
  have htol : ¬ |M.determinant| ≤ TOLERANCE := by
    simpa [canBeInverse] using h
  have hdet : M.determinant ≠ 0 := by
    intro h0
    exact htol (by rw [h0]; norm_num [TOLERANCE])
  have hD : invDivisor M ≠ 0 := by
    have he : invDivisor M = M.determinant := by
      simp only [invDivisor, mat4.determinant, dot, cross, vec3.smul, vec3.sub,
        mat4.el_00, mat4.el_01, mat4.el_02, mat4.el_03,
        mat4.el_10, mat4.el_11, mat4.el_12, mat4.el_13,
        mat4.el_20, mat4.el_21, mat4.el_22, mat4.el_23,
        mat4.el_30, mat4.el_31, mat4.el_32, mat4.el_33]
      ring
    rw [he]
    exact hdet
  simp only [invDivisor, dot, cross, vec3.smul, vec3.sub,
    mat4.el_00, mat4.el_01, mat4.el_02, mat4.el_03,
    mat4.el_10, mat4.el_11, mat4.el_12, mat4.el_13,
    mat4.el_20, mat4.el_21, mat4.el_22, mat4.el_23,
    mat4.el_30, mat4.el_31, mat4.el_32, mat4.el_33] at hD
  unfold inverse
  rw [if_neg htol]
  apply mat4.ext <;>
    · simp only [mul, mulSum, mat4.identity, dot, cross, vec3.add, vec3.smul, vec3.sub,
        mat4.el_00, mat4.el_01, mat4.el_02, mat4.el_03,
        mat4.el_10, mat4.el_11, mat4.el_12, mat4.el_13,
        mat4.el_20, mat4.el_21, mat4.el_22, mat4.el_23,
        mat4.el_30, mat4.el_31, mat4.el_32, mat4.el_33]
      field_simp
      ring

/-- C2 witness: the identity matrix passes `canBeInverse`, and multiplying it
by its inverse yields the identity matrix. -/
theorem mul_inverse_identity_witness :
    canBeInverse mat4.identity = true ∧
      mul mat4.identity (inverse mat4.identity) = mat4.identity := by
  have h : canBeInverse mat4.identity = true := by
    norm_num [canBeInverse, mat4.identity, mat4.determinant, TOLERANCE]
  exact ⟨h, mul_inverse_identity _ h⟩

end gdm
